import Mathlib

/-!
Shallow embedding of the aggregation pipeline of `stock_trade_visualizer.py`
(function `show_summary`) together with the parts of `app.py` it relies on.

Modelling conventions:
* An execution date (約定日) is encoded as a natural number `yyyymmdd`
  (e.g. `20250101`); its calendar month (年月, pandas `to_period("M")`)
  is then the quotient `d / 100`, i.e. `yyyymm`.  For well-formed dates
  this encoding is strictly monotone in chronological order, so sorting
  the encoded values reproduces the chronological order used by
  `groupby` (which sorts its keys ascending).
* Settlement amounts (受渡金額/決済損益) are rationals `ℚ`.
* A cell that `pd.to_datetime(..., errors="coerce")` or
  `pd.to_numeric(..., errors="coerce")` fails to parse becomes missing
  (`NaT`/`NaN`); a missing value is modelled as `none`.
* pandas group aggregations (`sum`, `min`, `mean`) skip missing values;
  `mean`/`min` of an all-missing selection is `NaN`, modelled as `none`.
* The two scalar metrics go through Python float semantics where `NaN`
  and truthiness matter; those are modelled by the dedicated `PyFloat`
  type below.
-/

/-- The date encoding: `yyyymmdd` as a natural number. -/
abbrev TradeDate := ℕ

/-- The month encoding (pandas `Period("M")`): `yyyymm` as a natural number. -/
abbrev TradeMonth := ℕ

/-- Pandas `df["約定日"].dt.to_period("M")`: the calendar month of a date. -/
def toMonth (d : TradeDate) : TradeMonth := d / 100

/-- A raw CSV cell as it arrives in the uploaded table: either a value that
the pandas coercion parses, or one it fails to parse. -/
inductive RawCell (α : Type) where
  | parsed (a : α) : RawCell α
  | unparsable : RawCell α
deriving DecidableEq

/-- Coercion with `errors="coerce"`: an unparsable cell becomes missing. -/
def RawCell.coerce {α : Type} : RawCell α → Option α
  | .parsed a => some a
  | .unparsable => none

/-- One row of the uploaded CSV table, before the type coercions of
`show_summary`: the trade-type label 取引 (a string; a missing cell has
already been turned into the string `"nan"` by `astype(str)`), the raw
execution-date cell 約定日 and the raw P&L cell 受渡金額/決済損益. -/
structure CsvRow where
  «取引» : String
  «約定日» : RawCell TradeDate
  «受渡金額/決済損益» : RawCell ℚ
deriving DecidableEq

/-- One row after the coercions on lines 25-26 of `stock_trade_visualizer.py`:
unparsable cells have become missing. -/
structure Row where
  «取引» : String
  «約定日» : Option TradeDate
  «受渡金額/決済損益» : Option ℚ
deriving DecidableEq

/-- Substring test: `pat` occurs contiguously in `s`
(pandas `str.contains(pat)` with a plain, non-regex pattern). -/
def strContains (s pat : String) : Bool :=
  (List.range (s.data.length + 1)).any fun i => pat.data.isPrefixOf (s.data.drop i)

/-- Line 22: `df = df[df["取引"].astype(str).str.contains("信用", na=False)]` —
keep only rows whose trade-type label contains the margin marker 信用. -/
def filterTrades (rows : List CsvRow) : List CsvRow :=
  rows.filter fun r => strContains r.«取引» "信用"

/-- Lines 25-26: coerce the date and the P&L cells of one row. -/
def coerceRow (r : CsvRow) : Row :=
  { «取引» := r.«取引»
    «約定日» := r.«約定日».coerce
    «受渡金額/決済損益» := r.«受渡金額/決済損益».coerce }

/-- The dataset `show_summary` aggregates: the filter of line 22 followed by
the coercions of lines 25-26. -/
def prepare (rows : List CsvRow) : List Row :=
  (filterTrades rows).map coerceRow

/-- Line 30: `df["勝ち"] = df["受渡金額/決済損益"] > 0`.
A missing P&L compares false (`NaN > 0` is `False`). -/
def «勝ち» (r : Row) : Bool :=
  r.«受渡金額/決済損益».elim false fun v => decide (0 < v)

/-- Line 31: `df["負け"] = df["受渡金額/決済損益"] < 0`.
A missing P&L compares false. -/
def «負け» (r : Row) : Bool :=
  r.«受渡金額/決済損益».elim false fun v => decide (v < 0)

/-- Line 33: `df["勝ち損益のみ"] = df["受渡金額/決済損益"].where(df["勝ち"])` —
the P&L where the row is a win, missing otherwise. -/
def «勝ち損益のみ» (r : Row) : Option ℚ :=
  if «勝ち» r then r.«受渡金額/決済損益» else none

/-- Line 34: `df["負け損益のみ"] = df["受渡金額/決済損益"].where(df["負け"])`. -/
def «負け損益のみ» (r : Row) : Option ℚ :=
  if «負け» r then r.«受渡金額/決済損益» else none

/-- Line 29: the daily `groupby` key, `df["約定日"].dt.date`
(missing when the date failed to parse; such rows fall in no group). -/
def dailyKey (r : Row) : Option ℕ := r.«約定日»

/-- Line 28: the monthly `groupby` key, `df["約定日"].dt.to_period("M")`. -/
def monthlyKey (r : Row) : Option ℕ := r.«約定日».map toMonth

/-- The rows of one `groupby` group: the rows whose key equals `k`.
Rows with a missing key belong to no group (`groupby` drops them). -/
def groupRows (key : Row → Option ℕ) (k : ℕ) (rows : List Row) : List Row :=
  rows.filter fun r => decide (key r = some k)

/-- The distinct keys of a `groupby`, sorted ascending
(`groupby` sorts its keys by default). -/
def sortedKeys (key : Row → Option ℕ) (rows : List Row) : List ℕ :=
  List.insertionSort (· ≤ ·) (rows.filterMap key).dedup

/-- pandas series `mean` over the non-missing entries of a selection:
`NaN` (here `none`) when the selection is empty. -/
def meanOpt (l : List ℚ) : Option ℚ :=
  if l = [] then none else some (l.sum / l.length)

/-- pandas series `min` over the non-missing entries of a selection:
`NaN` (here `none`) when the selection is empty. -/
def pandasMin : List ℚ → Option ℚ
  | [] => none
  | x :: xs =>
    match pandasMin xs with
    | none => some x
    | some m => some (min x m)

/-- One row of the `daily` (or `monthly`) summary table produced by the
`.agg(...)` calls on lines 37-46 and 48-57: the group key (日付 resp. 年月)
and the eight aggregated columns. -/
structure SummaryRow where
  key : ℕ
  «勝ち数» : ℕ
  «総取引数» : ℕ
  «総損益» : ℚ
  «勝率» : ℚ
  «最大損失» : Option ℚ
  «平均利益» : Option ℚ
  «平均損失» : Option ℚ
  «平均損益» : Option ℚ
deriving DecidableEq, Inhabited

/-- The non-missing P&L values of a group (what `sum`/`min`/`mean` act on). -/
def pnls (g : List Row) : List ℚ := g.filterMap (·.«受渡金額/決済損益»)

/-- The aggregation of one group `g` under key `k` (lines 38-45 / 49-56):
勝ち数 = sum of the boolean 勝ち column; 総取引数 = its count (the column is
never missing, so this is the group size); 総損益 = sum of the P&L skipping
missing; 勝率 = `x.sum() / len(x) * 100` over the 勝ち column; 最大損失 = min
of the P&L skipping missing; the three means skip missing entries of their
column. -/
def aggGroup (k : ℕ) (g : List Row) : SummaryRow :=
  { key := k
    «勝ち数» := (g.filter fun r => «勝ち» r).length
    «総取引数» := g.length
    «勝率» := ((g.filter fun r => «勝ち» r).length : ℚ) / (g.length : ℚ) * 100
    «総損益» := (pnls g).sum
    «最大損失» := pandasMin (pnls g)
    «平均利益» := meanOpt (g.filterMap «勝ち損益のみ»)
    «平均損失» := meanOpt (g.filterMap «負け損益のみ»)
    «平均損益» := meanOpt (pnls g) }

/-- Pandas `df.groupby(key).agg(...).reset_index()`: one summary row per distinct
key, in ascending key order. -/
def summarize (key : Row → Option ℕ) (rows : List Row) : List SummaryRow :=
  (sortedKeys key rows).map fun k => aggGroup k (groupRows key k rows)

/-- Lines 37-46: the daily summary table of the prepared dataset. -/
def dailyOf (t : List CsvRow) : List SummaryRow :=
  summarize dailyKey (prepare t)

/-- Lines 48-57: the monthly summary table of the prepared dataset. -/
def monthlyOf (t : List CsvRow) : List SummaryRow :=
  summarize monthlyKey (prepare t)

/-- A Python/numpy float as the scalar-metric code observes it: either a
finite value or `NaN`.  (Infinities never arise on the reachable paths:
every division is guarded by a truthiness test on its denominator.) -/
inductive PyFloat where
  | num (q : ℚ) : PyFloat
  | nan : PyFloat
deriving DecidableEq

/-- Python truthiness of a float: `0.0` is falsy; every other float,
`NaN` included, is truthy. -/
def pyTruthy : PyFloat → Bool
  | .num q => decide (q ≠ 0)
  | .nan => true

/-- Python `abs` on a float: `abs(nan)` is `nan`. -/
def pyAbs : PyFloat → PyFloat
  | .num q => .num |q|
  | .nan => .nan

/-- Division of Python floats: any operation touching `NaN` yields `NaN`.
The `0` denominator case is unreachable in `show_summary` (each division
sits under a truthiness guard on its denominator). -/
def pyDiv : PyFloat → PyFloat → PyFloat
  | .nan, _ => .nan
  | .num _, .nan => .nan
  | .num a, .num b => if b = 0 then .nan else .num (a / b)

/-- pandas `Series.mean` as a Python float: `NaN` on an empty selection. -/
def pyMean (l : List ℚ) : PyFloat :=
  if l = [] then .nan else .num (l.sum / l.length)

/-- The P&L values of the winning rows of the whole prepared dataset
(`df.loc[df["勝ち"], "受渡金額/決済損益"]`; a winning row always has a
non-missing P&L). -/
def dfWinPnls (rows : List Row) : List ℚ :=
  (rows.filter fun r => «勝ち» r).filterMap (·.«受渡金額/決済損益»)

/-- The P&L values of the losing rows of the whole prepared dataset
(`df.loc[df["負け"], "受渡金額/決済損益"]`). -/
def dfLossPnls (rows : List Row) : List ℚ :=
  (rows.filter fun r => «負け» r).filterMap (·.«受渡金額/決済損益»)

/-- Line 91: `avg_profit = df.loc[df["勝ち"], ...].mean()`. -/
def avg_profit (rows : List Row) : PyFloat := pyMean (dfWinPnls rows)

/-- Line 92: `avg_loss = df.loc[df["負け"], ...].mean()`. -/
def avg_loss (rows : List Row) : PyFloat := pyMean (dfLossPnls rows)

/-- Line 93: `total_profit = df.loc[df["勝ち"], ...].sum()` (sum of an empty
selection is `0.0`, never `NaN`). -/
def total_profit (rows : List Row) : PyFloat := .num (dfWinPnls rows).sum

/-- Line 94: `total_loss = df.loc[df["負け"], ...].sum()`. -/
def total_loss (rows : List Row) : PyFloat := .num (dfLossPnls rows).sum

/-- Line 96: `payoff_ratio = avg_profit / abs(avg_loss) if avg_loss else None`.
The condition is Python truthiness of `avg_loss`: `NaN` is truthy. -/
def payoff_ratio (rows : List Row) : Option PyFloat :=
  if pyTruthy (avg_loss rows) then some (pyDiv (avg_profit rows) (pyAbs (avg_loss rows)))
  else none

/-- Line 97: `profit_factor = total_profit / abs(total_loss) if total_loss else None`. -/
def profit_factor (rows : List Row) : Option PyFloat :=
  if pyTruthy (total_loss rows) then some (pyDiv (total_profit rows) (pyAbs (total_loss rows)))
  else none

/-- What `st.metric` receives for a scalar ratio, up to digits-rendering of a
finite value: the string 計算不可, the string `"nan"` (the `f"{x:.2f}"`
rendering of `NaN`), or the two-decimal rendering of the finite value `q`
(the exact digit string is presentation and is not modelled). -/
inductive Display where
  | notComputable : Display
  | nanText : Display
  | value (q : ℚ) : Display
deriving DecidableEq

/-- Lines 102/104: `f"{x:.2f}" if x else "計算不可"` — branch on the Python
truthiness of the optional float (`None` and `0.0` are falsy, `NaN` is
truthy), then format.  Formatting `NaN` yields the text `"nan"`. -/
def metricDisplay (x : Option PyFloat) : Display :=
  match x with
  | none => .notComputable
  | some .nan => .nanText
  | some (.num q) => if q = 0 then .notComputable else .value q

/-- The rendered payoff-ratio metric of line 102 for an input table. -/
def payoffDisplayOf (t : List CsvRow) : Display :=
  metricDisplay (payoff_ratio (prepare t))

/-- The rendered profit-factor metric of line 104 for an input table. -/
def profitFactorDisplayOf (t : List CsvRow) : Display :=
  metricDisplay (profit_factor (prepare t))

/-- Running sums starting from accumulator `a` (helper for `cumsum`). -/
def cumsumFrom (a : ℚ) : List ℚ → List ℚ
  | [] => []
  | x :: xs => (a + x) :: cumsumFrom (a + x) xs

/-- pandas `Series.cumsum`: entry `i` of the result is the sum of the
entries `0..i` of the input. -/
def cumsum (l : List ℚ) : List ℚ := cumsumFrom 0 l

/-- The 総損益 column of the daily summary, in date order. -/
def dailyTotals (t : List CsvRow) : List ℚ :=
  (dailyOf t).map (·.«総損益»)

/-- Lines 110/113: `daily["累積損益"] = daily["総損益"].cumsum()` — the
cumulative-P&L series charted against the dates. -/
def cumulativeOf (t : List CsvRow) : List ℚ :=
  cumsum (dailyTotals t)

/-- The total P&L of the rows of the prepared dataset that have no missing
field (both the execution date and the P&L parsed). -/
def datasetTotal (rows : List Row) : ℚ :=
  ((rows.filter fun r => r.«約定日».isSome && r.«受渡金額/決済損益».isSome).filterMap
    (·.«受渡金額/決済損益»)).sum

/-- Number of losing rows of a group (the 負け analogue of 勝ち数; not a
column the code displays, but the quantity the spec's example calls the
loss count). -/
def lossCount (g : List Row) : ℕ := (g.filter fun r => «負け» r).length

/-! ### Basic lemmas about the derived columns -/

theorem win_iff (r : Row) :
    «勝ち» r = true ↔ ∃ v, r.«受渡金額/決済損益» = some v ∧ 0 < v := by
  cases h : r.«受渡金額/決済損益» <;> simp [«勝ち», h]

theorem loss_iff (r : Row) :
    «負け» r = true ↔ ∃ v, r.«受渡金額/決済損益» = some v ∧ v < 0 := by
  cases h : r.«受渡金額/決済損益» <;> simp [«負け», h]

theorem win_of_missing (r : Row) (h : r.«受渡金額/決済損益» = none) : «勝ち» r = false := by
  simp [«勝ち», h]

theorem loss_of_missing (r : Row) (h : r.«受渡金額/決済損益» = none) : «負け» r = false := by
  simp [«負け», h]

/-! ### Lemmas about keys and groups -/

theorem mem_sortedKeys {key : Row → Option ℕ} {rows : List Row} {k : ℕ} :
    k ∈ sortedKeys key rows ↔ ∃ r ∈ rows, key r = some k := by
  unfold sortedKeys
  rw [(List.perm_insertionSort _ _).mem_iff, List.mem_dedup, List.mem_filterMap]

theorem nodup_sortedKeys (key : Row → Option ℕ) (rows : List Row) :
    (sortedKeys key rows).Nodup :=
  (List.perm_insertionSort _ _).nodup_iff.mpr (List.nodup_dedup _)

theorem mem_groupRows {key : Row → Option ℕ} {k : ℕ} {rows : List Row} {r : Row} :
    r ∈ groupRows key k rows ↔ r ∈ rows ∧ key r = some k := by
  simp [groupRows, List.mem_filter]

theorem groupRows_ne_nil {key : Row → Option ℕ} {rows : List Row} {k : ℕ}
    (h : k ∈ sortedKeys key rows) : groupRows key k rows ≠ [] := by
  obtain ⟨r, hr, hk⟩ := mem_sortedKeys.mp h
  intro hnil
  have : r ∈ groupRows key k rows := mem_groupRows.mpr ⟨hr, hk⟩
  simp [hnil] at this

/-! ### The sum of the 総損益 column of a summary table -/

/-- Membership of a row's key in a list of keys, as a boolean (proof helper). -/
def keyIn (key : Row → Option ℕ) (K : List ℕ) (r : Row) : Bool :=
  (key r).elim false fun k => decide (k ∈ K)

theorem sum_filter_disjoint (p q : Row → Bool) (hpq : ∀ r, p r = true → q r = false)
    (rows : List Row) :
    ((rows.filter fun r => p r || q r).filterMap (·.«受渡金額/決済損益»)).sum
      = ((rows.filter p).filterMap (·.«受渡金額/決済損益»)).sum
        + ((rows.filter q).filterMap (·.«受渡金額/決済損益»)).sum := by
  induction rows with
  | nil => simp
  | cons r rows ih =>
    cases hp : p r with
    | false =>
      cases hq : q r with
      | false => simpa [List.filter_cons, hp, hq] using ih
      | true =>
        cases hv : r.«受渡金額/決済損益» with
        | none => simpa [List.filter_cons, hp, hq, List.filterMap_cons, hv] using ih
        | some v =>
          simp [List.filter_cons, hp, hq, List.filterMap_cons, hv, ih]
          ring
    | true =>
      cases hq : q r with
      | false =>
        cases hv : r.«受渡金額/決済損益» with
        | none => simpa [List.filter_cons, hp, hq, List.filterMap_cons, hv] using ih
        | some v =>
          simp [List.filter_cons, hp, hq, List.filterMap_cons, hv, ih]
          ring
      | true => exact absurd hq (by simp [hpq r hp])

theorem sum_groups (key : Row → Option ℕ) (rows : List Row) :
    ∀ K : List ℕ, K.Nodup →
      ((K.map fun k => (pnls (groupRows key k rows)).sum).sum)
        = ((rows.filter fun r => keyIn key K r).filterMap (·.«受渡金額/決済損益»)).sum := by
  intro K
  induction K with
  | nil =>
    intro _
    have h0 : (rows.filter fun r => keyIn key [] r) = [] := by
      rw [List.filter_eq_nil_iff]
      intro r _
      cases h : key r <;> simp [keyIn, h]
    simp [h0]
  | cons k K ih =>
    intro hnd
    rw [List.nodup_cons] at hnd
    have hsplit : (rows.filter fun r => keyIn key (k :: K) r)
        = rows.filter fun r => (decide (key r = some k) || keyIn key K r) := by
      apply List.filter_congr
      intro r _
      cases h : key r with
      | none => simp [keyIn, h]
      | some k' => by_cases hk' : k' = k <;> simp [keyIn, h, hk', List.mem_cons]
    have hdisj : ∀ r, decide (key r = some k) = true → keyIn key K r = false := by
      intro r h
      rw [decide_eq_true_eq] at h
      simp [keyIn, h, hnd.1]
    rw [hsplit, sum_filter_disjoint _ _ hdisj rows, List.map_cons, List.sum_cons,
      ih hnd.2, pnls, groupRows]

theorem summarize_sum (key : Row → Option ℕ) (rows : List Row) :
    ((summarize key rows).map (·.«総損益»)).sum
      = ((rows.filter fun r => (key r).isSome).filterMap (·.«受渡金額/決済損益»)).sum := by
  unfold summarize
  rw [List.map_map]
  have hmap : ((fun s => s.«総損益») ∘ fun k => aggGroup k (groupRows key k rows))
      = fun k => (pnls (groupRows key k rows)).sum := rfl
  rw [hmap, sum_groups key rows (sortedKeys key rows) (nodup_sortedKeys key rows)]
  have hfc : (rows.filter fun r => keyIn key (sortedKeys key rows) r)
      = rows.filter fun r => (key r).isSome := by
    apply List.filter_congr
    intro r hr
    cases h : key r with
    | none => simp [keyIn, h]
    | some k =>
      simp only [keyIn, h, Option.elim_some, Option.isSome_some, decide_eq_true_eq]
      exact mem_sortedKeys.mpr ⟨r, hr, h⟩
  rw [hfc]

theorem monthlyKey_isSome (r : Row) : (monthlyKey r).isSome = (dailyKey r).isSome := by
  cases h : r.«約定日» <;> simp [monthlyKey, dailyKey, h]

theorem filter_dateSome_pnl (rows : List Row) :
    ((rows.filter fun r => (dailyKey r).isSome).filterMap (·.«受渡金額/決済損益»))
      = ((rows.filter fun r => r.«約定日».isSome && r.«受渡金額/決済損益».isSome).filterMap
          (·.«受渡金額/決済損益»)) := by
  induction rows with
  | nil => rfl
  | cons r rows ih =>
    cases hd : r.«約定日» with
    | none => simpa [List.filter_cons, dailyKey, hd] using ih
    | some d =>
      cases hv : r.«受渡金額/決済損益» with
      | none => simpa [List.filter_cons, dailyKey, hd, hv, List.filterMap_cons] using ih
      | some v => simpa [List.filter_cons, dailyKey, hd, hv, List.filterMap_cons] using ih

theorem dataset_sum (rows : List Row) :
    ((rows.filter fun r => (dailyKey r).isSome).filterMap (·.«受渡金額/決済損益»)).sum
      = datasetTotal rows := by
  rw [datasetTotal, filter_dateSome_pnl]

/-! ### Lemmas about `pandasMin` -/

theorem pandasMin_eq_none {l : List ℚ} (h : pandasMin l = none) : l = [] := by
  cases l with
  | nil => rfl
  | cons x xs =>
    rw [pandasMin] at h
    cases hxs : pandasMin xs <;> rw [hxs] at h <;> simp at h

theorem pandasMin_mem {l : List ℚ} : ∀ {m : ℚ}, pandasMin l = some m → m ∈ l := by
  induction l with
  | nil => intro m h; simp [pandasMin] at h
  | cons x xs ih =>
    intro m h
    rw [pandasMin] at h
    cases hxs : pandasMin xs with
    | none => rw [hxs] at h; simp only [Option.some.injEq] at h; simp [← h]
    | some m' =>
      rw [hxs] at h
      simp only [Option.some.injEq] at h
      rcases min_cases x m' with ⟨hmin, _⟩ | ⟨hmin, _⟩
      · rw [hmin] at h; simp [← h]
      · rw [hmin] at h
        exact List.mem_cons_of_mem x (ih (h ▸ hxs))

theorem pandasMin_le {l : List ℚ} : ∀ {m : ℚ}, pandasMin l = some m → ∀ x ∈ l, m ≤ x := by
  induction l with
  | nil => simp
  | cons x xs ih =>
    intro m h
    rw [pandasMin] at h
    cases hxs : pandasMin xs with
    | none =>
      rw [hxs] at h
      simp only [Option.some.injEq] at h
      have hnil := pandasMin_eq_none hxs
      subst hnil
      intro y hy
      simp only [List.mem_singleton] at hy
      rw [hy, ← h]
    | some m' =>
      rw [hxs] at h
      simp only [Option.some.injEq] at h
      intro y hy
      rcases List.mem_cons.mp hy with hy | hy
      · rw [hy, ← h]; exact min_le_left x m'
      · calc m ≤ m' := by rw [← h]; exact min_le_right x m'
          _ ≤ y := ih hxs y hy

theorem pandasMin_isSome {l : List ℚ} (h : l ≠ []) : ∃ m, pandasMin l = some m := by
  cases l with
  | nil => exact absurd rfl h
  | cons x xs =>
    rw [pandasMin]
    cases pandasMin xs with
    | none => exact ⟨x, rfl⟩
    | some m => exact ⟨min x m, rfl⟩

/-! ### Lemmas about `cumsum` -/

theorem cumsumFrom_length (a : ℚ) (l : List ℚ) : (cumsumFrom a l).length = l.length := by
  induction l generalizing a with
  | nil => rfl
  | cons x xs ih => simp [cumsumFrom, ih]

theorem cumsumFrom_getD (a : ℚ) (l : List ℚ) :
    ∀ i, i < l.length → (cumsumFrom a l).getD i 0 = a + (l.take (i + 1)).sum := by
  induction l generalizing a with
  | nil => intro i hi; simp at hi
  | cons x xs ih =>
    intro i hi
    cases i with
    | zero => simp [cumsumFrom]
    | succ j =>
      have hj : j < xs.length := by simpa using hi
      have := ih (a + x) j hj
      simp only [cumsumFrom, List.getD_cons_succ, List.take_succ_cons, List.sum_cons, this]
      ring

theorem cumsum_getD (l : List ℚ) (i : ℕ) (hi : i < l.length) :
    (cumsum l).getD i 0 = (l.take (i + 1)).sum := by
  rw [cumsum, cumsumFrom_getD 0 l i hi, zero_add]

theorem cumsum_length (l : List ℚ) : (cumsum l).length = l.length :=
  cumsumFrom_length 0 l

/-- The sum of a nonempty list of negative rationals is negative. -/
theorem sum_neg_of_all_neg {l : List ℚ} (h : ∀ x ∈ l, x < 0) (hne : l ≠ []) :
    l.sum < 0 := by
  induction l with
  | nil => exact absurd rfl hne
  | cons x xs ih =>
    rw [List.sum_cons]
    cases xs with
    | nil => simpa using h x (by simp)
    | cons y ys =>
      have hx : x < 0 := h x (by simp)
      have hxs : (y :: ys).sum < 0 := ih (fun z hz => h z (by simp [hz])) (by simp)
      linarith

/-! ### Example table of the spec (rows dated 2025-01-01 +1000, 2025-01-01 -400,
2025-01-02 +300, all margin trades) and related concrete data -/

def sampleTable : List CsvRow :=
  [⟨"信用", .parsed 20250101, .parsed 1000⟩,
   ⟨"信用", .parsed 20250101, .parsed (-400)⟩,
   ⟨"信用", .parsed 20250102, .parsed 300⟩]

/-- The daily summary row of `sampleTable` for 2025-01-01. -/
def sampleRow1 : SummaryRow :=
  aggGroup 20250101 (groupRows dailyKey 20250101 (prepare sampleTable))

/-- The total-P&L column of a summary table sums to the dataset total. -/
theorem dailyTotals_sum (t : List CsvRow) :
    (dailyTotals t).sum = datasetTotal (prepare t) := by
  rw [dailyTotals, dailyOf, summarize_sum, dataset_sum]

/-- C3: for every input table, the daily 総損益 column, the monthly 総損益
column, and the P&L total of the rows of the filtered dataset with no
missing field all have the same sum. -/
theorem daily_monthly_dataset_totals_agree (t : List CsvRow) :
    ((dailyOf t).map (·.«総損益»)).sum = ((monthlyOf t).map (·.«総損益»)).sum ∧
    ((dailyOf t).map (·.«総損益»)).sum = datasetTotal (prepare t) := by
  have hd := summarize_sum dailyKey (prepare t)
  have hm := summarize_sum monthlyKey (prepare t)
  have hfc : ((prepare t).filter fun r => (monthlyKey r).isSome)
      = (prepare t).filter fun r => (dailyKey r).isSome :=
    List.filter_congr fun r _ => by rw [monthlyKey_isSome]
  refine ⟨?_, ?_⟩
  · rw [dailyOf, monthlyOf, hd, hm, hfc]
  · rw [dailyOf, hd, dataset_sum]

/-- Any row of any summary table satisfies the win-rate formula and bounds. -/
theorem summarize_winRate {key : Row → Option ℕ} {rows : List Row} {s : SummaryRow}
    (hs : s ∈ summarize key rows) :
    s.«勝率» = (s.«勝ち数» : ℚ) / (s.«総取引数» : ℚ) * 100 ∧
    0 ≤ s.«勝率» ∧ s.«勝率» ≤ 100 := by
  rw [summarize, List.mem_map] at hs
  obtain ⟨k, hk, rfl⟩ := hs
  have hne : groupRows key k rows ≠ [] := groupRows_ne_nil hk
  have hlen : 0 < (groupRows key k rows).length := List.length_pos.mpr hne
  have hlenQ : (0:ℚ) < ((groupRows key k rows).length : ℚ) := by exact_mod_cast hlen
  refine ⟨rfl, ?_, ?_⟩
  · simp only [aggGroup]
    apply mul_nonneg
    · exact div_nonneg (Nat.cast_nonneg _) (Nat.cast_nonneg _)
    · norm_num
  · have hle : (((groupRows key k rows).filter fun r => «勝ち» r).length : ℚ)
        / ((groupRows key k rows).length : ℚ) ≤ 1 := by
      rw [div_le_one hlenQ]
      exact_mod_cast (groupRows key k rows).length_filter_le _
    have h100 := mul_le_mul_of_nonneg_right hle (by norm_num : (0:ℚ) ≤ 100)
    simpa [aggGroup] using h100

/-- C4: every row of the daily or monthly summary has
勝率 = 勝ち数 / 総取引数 × 100, a value between 0 and 100. -/
theorem winRate_formula_and_bounds (t : List CsvRow) (s : SummaryRow)
    (h : s ∈ dailyOf t ∨ s ∈ monthlyOf t) :
    s.«勝率» = (s.«勝ち数» : ℚ) / (s.«総取引数» : ℚ) * 100 ∧
    0 ≤ s.«勝率» ∧ s.«勝率» ≤ 100 :=
  h.elim (fun hd => summarize_winRate hd) (fun hm => summarize_winRate hm)

theorem winRate_formula_and_bounds_witness :
    (sampleRow1 ∈ dailyOf sampleTable ∨ sampleRow1 ∈ monthlyOf sampleTable) ∧
    (sampleRow1.«勝率» = (sampleRow1.«勝ち数» : ℚ) / (sampleRow1.«総取引数» : ℚ) * 100 ∧
      0 ≤ sampleRow1.«勝率» ∧ sampleRow1.«勝率» ≤ 100) := by
  have hd : dailyOf sampleTable
      = sampleRow1 :: [aggGroup 20250102 (groupRows dailyKey 20250102 (prepare sampleTable))] :=
    rfl
  have hmem : sampleRow1 ∈ dailyOf sampleTable := by
    rw [hd]; exact List.mem_cons_self _ _
  exact ⟨Or.inl hmem, winRate_formula_and_bounds sampleTable sampleRow1 (Or.inl hmem)⟩

/-- C5: the cumulative-P&L series is the running sum of the daily totals in
date order, its steps have the sign of the corresponding daily total, and its
last value is the dataset total. -/
theorem cumulative_is_running_sum (t : List CsvRow) :
    (∀ i, i < (dailyTotals t).length →
        (cumulativeOf t).getD i 0 = ((dailyTotals t).take (i + 1)).sum) ∧
    (∀ i, i + 1 < (dailyTotals t).length →
        ((0 ≤ (cumulativeOf t).getD (i + 1) 0 - (cumulativeOf t).getD i 0 ↔
            0 ≤ (dailyTotals t).getD (i + 1) 0) ∧
          ((cumulativeOf t).getD (i + 1) 0 - (cumulativeOf t).getD i 0 < 0 ↔
            (dailyTotals t).getD (i + 1) 0 < 0))) ∧
    (cumulativeOf t).getD ((cumulativeOf t).length - 1) 0 = datasetTotal (prepare t) := by
  have hc : cumulativeOf t = cumsum (dailyTotals t) := rfl
  refine ⟨?_, ?_, ?_⟩
  · intro i hi
    rw [hc]
    exact cumsum_getD (dailyTotals t) i hi
  · intro i hi
    have hi' : i < (dailyTotals t).length := Nat.lt_of_succ_lt hi
    have hstep : (cumulativeOf t).getD (i + 1) 0 - (cumulativeOf t).getD i 0
        = (dailyTotals t).getD (i + 1) 0 := by
      rw [hc, cumsum_getD (dailyTotals t) (i + 1) hi, cumsum_getD (dailyTotals t) i hi',
        List.getD_eq_getElem (dailyTotals t) 0 hi]
      have h2 := List.sum_take_succ (dailyTotals t) (i + 1) hi
      linarith
    rw [hstep]
    exact ⟨Iff.rfl, Iff.rfl⟩
  · rcases eq_or_ne (dailyTotals t) [] with hnil | hne
    · rw [hc, hnil]
      have hz := dailyTotals_sum t
      rw [hnil] at hz
      simp only [List.sum_nil] at hz
      simp [cumsum, cumsumFrom, ← hz]
    · have hlen : 0 < (dailyTotals t).length := List.length_pos.mpr hne
      rw [hc, cumsum_length]
      have h1 : (dailyTotals t).length - 1 < (dailyTotals t).length := Nat.sub_lt hlen one_pos
      rw [cumsum_getD (dailyTotals t) _ h1, Nat.sub_add_cancel hlen, List.take_length]
      exact dailyTotals_sum t

theorem cumulative_is_running_sum_witness :
    0 + 1 < (dailyTotals sampleTable).length ∧
    (0 ≤ (cumulativeOf sampleTable).getD (0 + 1) 0 - (cumulativeOf sampleTable).getD 0 0 ↔
      0 ≤ (dailyTotals sampleTable).getD (0 + 1) 0) := by
  have hlen : 0 + 1 < (dailyTotals sampleTable).length := by decide
  exact ⟨hlen, ((cumulative_is_running_sum sampleTable).2.1 0 hlen).1⟩

/-- C6: on the spec's three-row example, the 2025-01-01 daily summary row has
total 600, win count 1, loss count 1, win rate 50 %, and the 2025-01-02 row
has total 300 and win rate 100 %. -/
theorem example_daily_summary :
    ((dailyOf sampleTable).getD 0 default).«総損益» = 600 ∧
    ((dailyOf sampleTable).getD 0 default).«勝ち数» = 1 ∧
    lossCount (groupRows dailyKey 20250101 (prepare sampleTable)) = 1 ∧
    ((dailyOf sampleTable).getD 0 default).«勝率» = 50 ∧
    ((dailyOf sampleTable).getD 1 default).«総損益» = 300 ∧
    ((dailyOf sampleTable).getD 1 default).«勝率» = 100 := by
  have h : dailyOf sampleTable
      = [aggGroup 20250101
          [⟨"信用", some 20250101, some 1000⟩, ⟨"信用", some 20250101, some (-400)⟩],
         aggGroup 20250102 [⟨"信用", some 20250102, some 300⟩]] := rfl
  have hg : groupRows dailyKey 20250101 (prepare sampleTable)
      = [⟨"信用", some 20250101, some 1000⟩, ⟨"信用", some 20250101, some (-400)⟩] := rfl
  refine ⟨?_, ?_, ?_, ?_, ?_, ?_⟩ <;> (try rw [h]) <;> (try rw [hg])
  all_goals
    norm_num [aggGroup, pnls, lossCount, meanOpt, «勝ち», «負け», List.filterMap_cons]

/-! ### The scalar metrics (payoff ratio, profit factor) -/

theorem dfLossPnls_eq_nil {rows : List Row} (h : ∀ r ∈ rows, «負け» r = false) :
    dfLossPnls rows = [] := by
  rw [dfLossPnls]
  have hf : rows.filter (fun r => «負け» r) = [] :=
    List.filter_eq_nil_iff.mpr fun r hr => by simp [h r hr]
  rw [hf]
  rfl

theorem dfWinPnls_eq_nil {rows : List Row} (h : ∀ r ∈ rows, «勝ち» r = false) :
    dfWinPnls rows = [] := by
  rw [dfWinPnls]
  have hf : rows.filter (fun r => «勝ち» r) = [] :=
    List.filter_eq_nil_iff.mpr fun r hr => by simp [h r hr]
  rw [hf]
  rfl

theorem mem_dfLossPnls_neg {rows : List Row} {x : ℚ} (hx : x ∈ dfLossPnls rows) : x < 0 := by
  rw [dfLossPnls, List.mem_filterMap] at hx
  obtain ⟨r, hr, hpnl⟩ := hx
  have hloss : «負け» r = true := (List.mem_filter.mp hr).2
  obtain ⟨v, hv, hvneg⟩ := (loss_iff r).mp hloss
  rw [hv] at hpnl
  exact (Option.some.injEq _ _ ▸ hpnl) ▸ hvneg

theorem dfLossPnls_ne_nil {rows : List Row} (h : ∃ r ∈ rows, «負け» r = true) :
    dfLossPnls rows ≠ [] := by
  obtain ⟨r, hr, hloss⟩ := h
  obtain ⟨v, hv, _⟩ := (loss_iff r).mp hloss
  intro hnil
  have hmem : v ∈ dfLossPnls rows := by
    rw [dfLossPnls, List.mem_filterMap]
    exact ⟨r, List.mem_filter.mpr ⟨hr, by simp [hloss]⟩, hv⟩
  rw [hnil] at hmem
  exact absurd hmem (List.not_mem_nil v)

/-- C1 (amended): with zero losing trades in the filtered dataset the profit
factor is reported 計算不可 (its guard sees the falsy sum `0.0`), but the
payoff ratio is reported as the text `"nan"`: the mean of the empty losing
selection is `NaN`, which is truthy, so the formatting branch renders `NaN`. -/
theorem no_losers_displays (t : List CsvRow)
    (h : ∀ r ∈ prepare t, «負け» r = false) :
    profitFactorDisplayOf t = Display.notComputable ∧
    payoffDisplayOf t = Display.nanText := by
  have hnil := dfLossPnls_eq_nil h
  constructor
  · rw [profitFactorDisplayOf, profit_factor, total_loss, hnil]
    simp [pyTruthy, metricDisplay]
  · rw [payoffDisplayOf, payoff_ratio, avg_loss, hnil]
    rw [show pyMean [] = PyFloat.nan from rfl]
    cases havg : avg_profit (prepare t) <;>
      simp [pyTruthy, pyAbs, pyDiv, metricDisplay, havg]

/-- The table with a single winning margin trade. -/
def onlyWinTable : List CsvRow := [⟨"信用", .parsed 20250101, .parsed 1000⟩]

theorem no_losers_displays_witness :
    (∀ r ∈ prepare onlyWinTable, «負け» r = false) ∧
    (profitFactorDisplayOf onlyWinTable = Display.notComputable ∧
      payoffDisplayOf onlyWinTable = Display.nanText) :=
  ⟨by decide, no_losers_displays onlyWinTable (by decide)⟩

/-- C1 counterexample: the one-winning-trade table has zero losing trades,
yet the payoff ratio is not reported 計算不可 (it is reported `"nan"`). -/
theorem ratios_not_computable_cex :
    (∀ r ∈ prepare onlyWinTable, «負け» r = false) ∧
    payoffDisplayOf onlyWinTable ≠ Display.notComputable := by
  constructor
  · decide
  · have h : payoffDisplayOf onlyWinTable = Display.nanText := rfl
    rw [h]
    decide

theorem mem_dfWinPnls {rows : List Row} {r : Row} {v : ℚ} (hr : r ∈ rows)
    (hv : r.«受渡金額/決済損益» = some v) (hpos : 0 < v) : v ∈ dfWinPnls rows := by
  rw [dfWinPnls, List.mem_filterMap]
  refine ⟨r, List.mem_filter.mpr ⟨hr, ?_⟩, hv⟩
  simp [(win_iff r).mpr ⟨v, hv, hpos⟩]

/-- C10: with at least one losing trade and no winning trades, the profit
factor evaluates to the well-defined value `0` (zero total wins over a
nonzero absolute total loss), yet the metric is displayed 計算不可 because
the display branches on the numeric truthiness of the value `0.0`. -/
theorem profit_factor_zero_displayed_not_computable (t : List CsvRow)
    (hl : ∃ r ∈ prepare t, «負け» r = true)
    (hw : ∀ r ∈ prepare t, «勝ち» r = false) :
    profit_factor (prepare t) = some (PyFloat.num 0) ∧
    profitFactorDisplayOf t = Display.notComputable := by
  have hwin : dfWinPnls (prepare t) = [] := dfWinPnls_eq_nil hw
  have hneg : (dfLossPnls (prepare t)).sum < 0 :=
    sum_neg_of_all_neg (fun x hx => mem_dfLossPnls_neg hx) (dfLossPnls_ne_nil hl)
  have habs : |(dfLossPnls (prepare t)).sum| ≠ 0 := abs_ne_zero.mpr (ne_of_lt hneg)
  have hpf : profit_factor (prepare t) = some (PyFloat.num 0) := by
    rw [profit_factor, total_loss, total_profit, hwin]
    rw [if_pos (by simp [pyTruthy, ne_of_lt hneg])]
    simp [pyAbs, pyDiv, habs]
  exact ⟨hpf, by rw [profitFactorDisplayOf, hpf]; simp [metricDisplay]⟩

/-- The table with a single losing margin trade. -/
def onlyLossTable : List CsvRow := [⟨"信用", .parsed 20250101, .parsed (-400)⟩]

theorem profit_factor_zero_witness :
    (∃ r ∈ prepare onlyLossTable, «負け» r = true) ∧
    (∀ r ∈ prepare onlyLossTable, «勝ち» r = false) ∧
    (profit_factor (prepare onlyLossTable) = some (PyFloat.num 0) ∧
      profitFactorDisplayOf onlyLossTable = Display.notComputable) :=
  ⟨by decide, by decide,
    profit_factor_zero_displayed_not_computable onlyLossTable (by decide) (by decide)⟩

/-! ### Win/loss classification and the subset averages -/

theorem whereWin_eq_none_iff (r : Row) : «勝ち損益のみ» r = none ↔ «勝ち» r = false := by
  cases hw : «勝ち» r with
  | false => simp [«勝ち損益のみ», hw]
  | true =>
    obtain ⟨v, hv, _⟩ := (win_iff r).mp hw
    simp [«勝ち損益のみ», hw, hv]

theorem whereLoss_eq_none_iff (r : Row) : «負け損益のみ» r = none ↔ «負け» r = false := by
  cases hw : «負け» r with
  | false => simp [«負け損益のみ», hw]
  | true =>
    obtain ⟨v, hv, _⟩ := (loss_iff r).mp hw
    simp [«負け損益のみ», hw, hv]

theorem filterMap_whereWin (g : List Row) :
    g.filterMap «勝ち損益のみ»
      = (g.filter fun r => «勝ち» r).filterMap (·.«受渡金額/決済損益») := by
  induction g with
  | nil => rfl
  | cons r g ih =>
    cases hw : «勝ち» r with
    | false =>
      have hnone : «勝ち損益のみ» r = none := (whereWin_eq_none_iff r).mpr hw
      simpa [List.filterMap_cons, List.filter_cons, hw, hnone] using ih
    | true =>
      obtain ⟨v, hv, _⟩ := (win_iff r).mp hw
      simpa [List.filterMap_cons, List.filter_cons, hw, «勝ち損益のみ», hv] using ih

theorem filterMap_whereLoss (g : List Row) :
    g.filterMap «負け損益のみ»
      = (g.filter fun r => «負け» r).filterMap (·.«受渡金額/決済損益») := by
  induction g with
  | nil => rfl
  | cons r g ih =>
    cases hw : «負け» r with
    | false =>
      have hnone : «負け損益のみ» r = none := (whereLoss_eq_none_iff r).mpr hw
      simpa [List.filterMap_cons, List.filter_cons, hw, hnone] using ih
    | true =>
      obtain ⟨v, hv, _⟩ := (loss_iff r).mp hw
      simpa [List.filterMap_cons, List.filter_cons, hw, «負け損益のみ», hv] using ih

theorem meanOpt_eq_none_iff (l : List ℚ) : meanOpt l = none ↔ l = [] := by
  rw [meanOpt]
  split <;> simp_all

/-- C7: the win/loss flags are strict sign tests (zero is neither, yet counts
in 総取引数 = group size), and the two subset averages are computed over
exactly the winning resp. losing rows, `NaN` (missing) when the subset is
empty. -/
theorem win_loss_classification (k : ℕ) (g : List Row) :
    (∀ r ∈ g, ∀ v : ℚ, r.«受渡金額/決済損益» = some v →
        ((«勝ち» r = true ↔ 0 < v) ∧ («負け» r = true ↔ v < 0) ∧
          (v = 0 → «勝ち» r = false ∧ «負け» r = false))) ∧
    (aggGroup k g).«総取引数» = g.length ∧
    (aggGroup k g).«平均利益»
        = meanOpt ((g.filter fun r => «勝ち» r).filterMap (·.«受渡金額/決済損益»)) ∧
    ((aggGroup k g).«平均利益» = none ↔ ∀ r ∈ g, «勝ち» r = false) ∧
    (aggGroup k g).«平均損失»
        = meanOpt ((g.filter fun r => «負け» r).filterMap (·.«受渡金額/決済損益»)) ∧
    ((aggGroup k g).«平均損失» = none ↔ ∀ r ∈ g, «負け» r = false) := by
  refine ⟨?_, rfl, ?_, ?_, ?_, ?_⟩
  · intro r _ v hv
    refine ⟨by simp [«勝ち», hv], by simp [«負け», hv], ?_⟩
    rintro rfl
    simp [«勝ち», «負け», hv]
  · simp only [aggGroup]
    rw [filterMap_whereWin]
  · simp only [aggGroup]
    rw [meanOpt_eq_none_iff, List.filterMap_eq_nil_iff]
    exact forall₂_congr fun r _ => whereWin_eq_none_iff r
  · simp only [aggGroup]
    rw [filterMap_whereLoss]
  · simp only [aggGroup]
    rw [meanOpt_eq_none_iff, List.filterMap_eq_nil_iff]
    exact forall₂_congr fun r _ => whereLoss_eq_none_iff r

/-- A one-row group used to instantiate classification facts. -/
def winRow : Row := ⟨"信用", some 20250101, some 5⟩

theorem win_loss_classification_witness :
    (winRow ∈ [winRow] ∧ winRow.«受渡金額/決済損益» = some 5) ∧
    («勝ち» winRow = true ↔ (0:ℚ) < 5) ∧
    (aggGroup 20250101 [winRow]).«総取引数» = [winRow].length ∧
    ((aggGroup 20250101 [winRow]).«平均利益» = none ↔ ∀ r ∈ [winRow], «勝ち» r = false) := by
  refine ⟨⟨by simp, rfl⟩, ?_, ?_, ?_⟩
  · exact ((win_loss_classification 20250101 [winRow]).1 winRow (by simp) 5 rfl).1
  · exact (win_loss_classification 20250101 [winRow]).2.1
  · exact (win_loss_classification 20250101 [winRow]).2.2.2.1

/-! ### The trade-type filter -/

theorem prepare_skips_cash (l₁ l₂ : List CsvRow) (r : CsvRow)
    (h : strContains r.«取引» "信用" = false) :
    prepare (l₁ ++ r :: l₂) = prepare (l₁ ++ l₂) := by
  rw [prepare, prepare, filterTrades, filterTrades]
  simp [List.filter_append, List.filter_cons, h]

/-- C8: a row whose trade-type label does not contain 信用 is dropped by the
line-22 filter, so every output of the report — daily and monthly summaries,
both scalar-ratio displays, the cumulative series — is unchanged by its
presence anywhere in the input. -/
theorem cash_rows_excluded (l₁ l₂ : List CsvRow) (r : CsvRow)
    (h : strContains r.«取引» "信用" = false) :
    dailyOf (l₁ ++ r :: l₂) = dailyOf (l₁ ++ l₂) ∧
    monthlyOf (l₁ ++ r :: l₂) = monthlyOf (l₁ ++ l₂) ∧
    payoffDisplayOf (l₁ ++ r :: l₂) = payoffDisplayOf (l₁ ++ l₂) ∧
    profitFactorDisplayOf (l₁ ++ r :: l₂) = profitFactorDisplayOf (l₁ ++ l₂) ∧
    cumulativeOf (l₁ ++ r :: l₂) = cumulativeOf (l₁ ++ l₂) := by
  have hp := prepare_skips_cash l₁ l₂ r h
  exact ⟨by rw [dailyOf, hp, dailyOf],
    by rw [monthlyOf, hp, monthlyOf],
    by rw [payoffDisplayOf, hp, payoffDisplayOf],
    by rw [profitFactorDisplayOf, hp, profitFactorDisplayOf],
    by rw [cumulativeOf, dailyTotals, dailyOf, hp, cumulativeOf, dailyTotals, dailyOf]⟩

/-- A cash (現物) trade row: its label has no margin marker. -/
def cashRow : CsvRow := ⟨"現物", .parsed 20250105, .parsed (-50)⟩

theorem cash_rows_excluded_witness :
    strContains cashRow.«取引» "信用" = false ∧
    dailyOf ([] ++ cashRow :: [⟨"信用", .parsed 20250101, .parsed 1000⟩])
      = dailyOf ([] ++ [⟨"信用", .parsed 20250101, .parsed 1000⟩]) :=
  ⟨by decide,
    (cash_rows_excluded [] [⟨"信用", .parsed 20250101, .parsed 1000⟩] cashRow (by decide)).1⟩

/-! ### 最大損失 is the minimum P&L of the group -/

/-- C9: in every daily or monthly group, 最大損失 is the minimum of the
group's non-missing P&L values — winning trades included: it is attained by
some row of the group and bounds every row's P&L from below, and on a group
whose every row is a win it is a strictly positive number (not a loss). -/
theorem maxLoss_is_group_min (key : Row → Option ℕ) (rows : List Row) (k : ℕ)
    (_hkey : key = dailyKey ∨ key = monthlyKey)
    (hk : k ∈ sortedKeys key rows) :
    (∀ m : ℚ, (aggGroup k (groupRows key k rows)).«最大損失» = some m →
        (∃ r ∈ groupRows key k rows, r.«受渡金額/決済損益» = some m) ∧
        (∀ r ∈ groupRows key k rows, ∀ v : ℚ, r.«受渡金額/決済損益» = some v → m ≤ v)) ∧
    ((∀ r ∈ groupRows key k rows, «勝ち» r = true) →
        ∃ m : ℚ, (aggGroup k (groupRows key k rows)).«最大損失» = some m ∧ 0 < m) := by
  constructor
  · intro m hm
    simp only [aggGroup] at hm
    constructor
    · have hmem := pandasMin_mem hm
      rw [pnls, List.mem_filterMap] at hmem
      obtain ⟨r, hr, hpnl⟩ := hmem
      exact ⟨r, hr, hpnl⟩
    · intro r hr v hv
      apply pandasMin_le hm
      rw [pnls, List.mem_filterMap]
      exact ⟨r, hr, hv⟩
  · intro hall
    have hne : groupRows key k rows ≠ [] := groupRows_ne_nil hk
    obtain ⟨r, hr⟩ := List.exists_mem_of_ne_nil _ hne
    obtain ⟨v, hv, _⟩ := (win_iff r).mp (hall r hr)
    have hvmem : v ∈ pnls (groupRows key k rows) := by
      rw [pnls, List.mem_filterMap]
      exact ⟨r, hr, hv⟩
    have hpne : pnls (groupRows key k rows) ≠ [] := by
      intro h0
      rw [h0] at hvmem
      exact absurd hvmem (List.not_mem_nil v)
    obtain ⟨m, hm⟩ := pandasMin_isSome hpne
    refine ⟨m, by simp only [aggGroup]; exact hm, ?_⟩
    have hmmem := pandasMin_mem hm
    rw [pnls, List.mem_filterMap] at hmmem
    obtain ⟨r', hr', hm'⟩ := hmmem
    obtain ⟨v', hv', hvpos'⟩ := (win_iff r').mp (hall r' hr')
    rw [hv', Option.some.injEq] at hm'
    exact hm' ▸ hvpos'

theorem maxLoss_is_group_min_witness :
    ((dailyKey = dailyKey ∨ dailyKey = monthlyKey) ∧
      20250101 ∈ sortedKeys dailyKey (prepare onlyWinTable) ∧
      (∀ r ∈ groupRows dailyKey 20250101 (prepare onlyWinTable), «勝ち» r = true)) ∧
    (∃ m : ℚ,
      (aggGroup 20250101 (groupRows dailyKey 20250101 (prepare onlyWinTable))).«最大損失»
          = some m ∧ 0 < m) :=
  ⟨⟨Or.inl rfl, by decide, by decide⟩,
    (maxLoss_is_group_min dailyKey (prepare onlyWinTable) 20250101 (Or.inl rfl)
      (by decide)).2 (by decide)⟩

/-! ### Coercion of unparsable cells -/

/-- A table whose second row has an unparsable P&L cell. -/
def mixedTable : List CsvRow :=
  [⟨"信用", .parsed 20250101, .parsed 100⟩, ⟨"信用", .parsed 20250101, .unparsable⟩]

/-- The table `mixedTable` with the unparsable-P&L row removed. -/
def mixedTableDropped : List CsvRow := [⟨"信用", .parsed 20250101, .parsed 100⟩]

/-- C2 counterexample: the row whose P&L cell fails to parse is NOT excluded
from every aggregate: it still counts in the total trade count 総取引数
(2, not 1) and dilutes the win-rate denominator (勝率 50 instead of 100). -/
theorem unparsable_excluded_cex :
    ((dailyOf mixedTable).getD 0 default).«総取引数» = 2 ∧
    ((dailyOf mixedTableDropped).getD 0 default).«総取引数» = 1 ∧
    ((dailyOf mixedTable).getD 0 default).«勝率» = 50 ∧
    ((dailyOf mixedTableDropped).getD 0 default).«勝率» = 100 := by
  have h1 : dailyOf mixedTable
      = [aggGroup 20250101
          [⟨"信用", some 20250101, some 100⟩, ⟨"信用", some 20250101, none⟩]] := rfl
  have h2 : dailyOf mixedTableDropped
      = [aggGroup 20250101 [⟨"信用", some 20250101, some 100⟩]] := rfl
  refine ⟨?_, ?_, ?_, ?_⟩ <;> (try rw [h1]) <;> (try rw [h2]) <;>
    norm_num [aggGroup, «勝ち», List.filter_cons]

theorem summarize_skips_noneKey (key : Row → Option ℕ) (l₁ l₂ : List Row) (x : Row)
    (h : key x = none) :
    summarize key (l₁ ++ x :: l₂) = summarize key (l₁ ++ l₂) := by
  have h1 : sortedKeys key (l₁ ++ x :: l₂) = sortedKeys key (l₁ ++ l₂) := by
    rw [sortedKeys, sortedKeys]
    have : (l₁ ++ x :: l₂).filterMap key = (l₁ ++ l₂).filterMap key := by
      simp [List.filterMap_append, List.filterMap_cons, h]
    rw [this]
  have h2 : ∀ k, groupRows key k (l₁ ++ x :: l₂) = groupRows key k (l₁ ++ l₂) := fun k => by
    simp [groupRows, List.filter_append, List.filter_cons, h]
  rw [summarize, summarize, h1]
  exact List.map_congr_left fun k _ => by rw [h2 k]

/-- C2 (amended): an unparsable P&L cell becomes missing and is skipped by
every P&L-based aggregate of its group (勝ち数, 総損益, 最大損失, 平均利益,
平均損失) and by the two scalar ratios, but its row still counts in the
group's total trade count 総取引数 (hence in the win-rate denominator);
an unparsable date cell becomes missing and removes its row from the daily
and the monthly summaries entirely.  Processing never fails: the pipeline is
a total function of the table. -/
theorem unparsable_cells_amended (l₁ l₂ : List Row) (k : ℕ) (key : Row → Option ℕ) (r : Row)
    (hp : r.«受渡金額/決済損益» = none) :
    (aggGroup k (groupRows key k (l₁ ++ r :: l₂))).«勝ち数»
        = (aggGroup k (groupRows key k (l₁ ++ l₂))).«勝ち数» ∧
    (aggGroup k (groupRows key k (l₁ ++ r :: l₂))).«総損益»
        = (aggGroup k (groupRows key k (l₁ ++ l₂))).«総損益» ∧
    (aggGroup k (groupRows key k (l₁ ++ r :: l₂))).«最大損失»
        = (aggGroup k (groupRows key k (l₁ ++ l₂))).«最大損失» ∧
    (aggGroup k (groupRows key k (l₁ ++ r :: l₂))).«平均利益»
        = (aggGroup k (groupRows key k (l₁ ++ l₂))).«平均利益» ∧
    (aggGroup k (groupRows key k (l₁ ++ r :: l₂))).«平均損失»
        = (aggGroup k (groupRows key k (l₁ ++ l₂))).«平均損失» ∧
    (key r = some k →
      (aggGroup k (groupRows key k (l₁ ++ r :: l₂))).«総取引数»
          = (aggGroup k (groupRows key k (l₁ ++ l₂))).«総取引数» + 1) ∧
    payoff_ratio (l₁ ++ r :: l₂) = payoff_ratio (l₁ ++ l₂) ∧
    profit_factor (l₁ ++ r :: l₂) = profit_factor (l₁ ++ l₂) ∧
    (∀ x : Row, x.«約定日» = none →
        summarize dailyKey (l₁ ++ x :: l₂) = summarize dailyKey (l₁ ++ l₂) ∧
        summarize monthlyKey (l₁ ++ x :: l₂) = summarize monthlyKey (l₁ ++ l₂)) := by
  have hw : «勝ち» r = false := win_of_missing r hp
  have hl : «負け» r = false := loss_of_missing r hp
  have hwn : «勝ち損益のみ» r = none := (whereWin_eq_none_iff r).mpr hw
  have hln : «負け損益のみ» r = none := (whereLoss_eq_none_iff r).mpr hl
  have hW : dfWinPnls (l₁ ++ r :: l₂) = dfWinPnls (l₁ ++ l₂) := by
    simp [dfWinPnls, List.filter_append, List.filter_cons, hw]
  have hL : dfLossPnls (l₁ ++ r :: l₂) = dfLossPnls (l₁ ++ l₂) := by
    simp [dfLossPnls, List.filter_append, List.filter_cons, hl]
  have hdates : ∀ x : Row, x.«約定日» = none →
      summarize dailyKey (l₁ ++ x :: l₂) = summarize dailyKey (l₁ ++ l₂) ∧
      summarize monthlyKey (l₁ ++ x :: l₂) = summarize monthlyKey (l₁ ++ l₂) := by
    intro x hx
    exact ⟨summarize_skips_noneKey dailyKey l₁ l₂ x (by simp [dailyKey, hx]),
      summarize_skips_noneKey monthlyKey l₁ l₂ x (by simp [monthlyKey, hx])⟩
  by_cases hkr : key r = some k
  · have hg : groupRows key k (l₁ ++ r :: l₂)
        = groupRows key k l₁ ++ r :: groupRows key k l₂ := by
      simp [groupRows, List.filter_append, List.filter_cons, hkr]
    have hg' : groupRows key k (l₁ ++ l₂)
        = groupRows key k l₁ ++ groupRows key k l₂ := by
      simp [groupRows, List.filter_append]
    refine ⟨?_, ?_, ?_, ?_, ?_, ?_, ?_, ?_, hdates⟩
    · simp [aggGroup, hg, hg', List.filter_append, List.filter_cons, hw]
    · simp [aggGroup, pnls, hg, hg', List.filterMap_append, List.filterMap_cons, hp]
    · simp [aggGroup, pnls, hg, hg', List.filterMap_append, List.filterMap_cons, hp]
    · simp [aggGroup, hg, hg', List.filterMap_append, List.filterMap_cons, hwn]
    · simp [aggGroup, hg, hg', List.filterMap_append, List.filterMap_cons, hln]
    · intro _
      simp only [aggGroup, hg, hg', List.length_append, List.length_cons]
      omega
    · simp [payoff_ratio, avg_profit, avg_loss, hW, hL]
    · simp [profit_factor, total_profit, total_loss, hW, hL]
  · have hg : groupRows key k (l₁ ++ r :: l₂) = groupRows key k (l₁ ++ l₂) := by
      simp [groupRows, List.filter_append, List.filter_cons, hkr]
    exact ⟨by rw [hg], by rw [hg], by rw [hg], by rw [hg], by rw [hg],
      fun hcontra => absurd hcontra hkr,
      by simp [payoff_ratio, avg_profit, avg_loss, hW, hL],
      by simp [profit_factor, total_profit, total_loss, hW, hL], hdates⟩

/-- The prepared row with P&L 100, and the one whose P&L failed to parse. -/
def row100 : Row := ⟨"信用", some 20250101, some 100⟩

/-- A prepared row whose P&L cell was unparsable (missing after coercion). -/
def rowNoPnl : Row := ⟨"信用", some 20250101, none⟩

theorem unparsable_cells_amended_witness :
    rowNoPnl.«受渡金額/決済損益» = none ∧
    ((aggGroup 20250101 (groupRows dailyKey 20250101 ([] ++ rowNoPnl :: [row100]))).«勝ち数»
        = (aggGroup 20250101 (groupRows dailyKey 20250101 ([] ++ [row100]))).«勝ち数» ∧
      (aggGroup 20250101 (groupRows dailyKey 20250101 ([] ++ rowNoPnl :: [row100]))).«総損益»
        = (aggGroup 20250101 (groupRows dailyKey 20250101 ([] ++ [row100]))).«総損益» ∧
      (aggGroup 20250101 (groupRows dailyKey 20250101 ([] ++ rowNoPnl :: [row100]))).«最大損失»
        = (aggGroup 20250101 (groupRows dailyKey 20250101 ([] ++ [row100]))).«最大損失» ∧
      (aggGroup 20250101 (groupRows dailyKey 20250101 ([] ++ rowNoPnl :: [row100]))).«平均利益»
        = (aggGroup 20250101 (groupRows dailyKey 20250101 ([] ++ [row100]))).«平均利益» ∧
      (aggGroup 20250101 (groupRows dailyKey 20250101 ([] ++ rowNoPnl :: [row100]))).«平均損失»
        = (aggGroup 20250101 (groupRows dailyKey 20250101 ([] ++ [row100]))).«平均損失» ∧
      (dailyKey rowNoPnl = some 20250101 →
        (aggGroup 20250101 (groupRows dailyKey 20250101 ([] ++ rowNoPnl :: [row100]))).«総取引数»
          = (aggGroup 20250101 (groupRows dailyKey 20250101 ([] ++ [row100]))).«総取引数» + 1) ∧
      payoff_ratio ([] ++ rowNoPnl :: [row100]) = payoff_ratio ([] ++ [row100]) ∧
      profit_factor ([] ++ rowNoPnl :: [row100]) = profit_factor ([] ++ [row100]) ∧
      (∀ x : Row, x.«約定日» = none →
        summarize dailyKey ([] ++ x :: [row100]) = summarize dailyKey ([] ++ [row100]) ∧
        summarize monthlyKey ([] ++ x :: [row100]) = summarize monthlyKey ([] ++ [row100]))) :=
  ⟨rfl, unparsable_cells_amended [] [row100] 20250101 dailyKey rowNoPnl rfl⟩
